import Mathlib

/-!
Verification development for the KHROS command-script editor
(`20_timer_callbacks/cli.py`).

The Python source is shallowly embedded: every definition below mirrors the
corresponding Python function of the source file.  Python strings are
modelled through their character lists, and the Python string primitives
used by the source (`strip`, `split`, `startswith`, `replace`, slicing,
`int(...)`, `str.lower`) are re-implemented here on `List Char` so that all
definitions are executable and kernel-reducible.  Machine integers are
modelled as `Int` (Python integers are unbounded, so no wrap-around is
needed).  The two calls to the host `eval` builtin (in
`process_variable_assignment` and `evaluate_condition`) are an external
collaborator of the program, modelled by an explicit `Evaluator` oracle;
a concrete instance agreeing with Python `eval` on the expression strings
of the test scripts (integer literals and `==` comparisons of integer
literals) is provided for concrete runs.
-/

namespace KHROS

/-! ### Python string primitives on character lists -/

/-- `strPrefixAt p xs` is true when the list `p` is a prefix of `xs`
(character-list core of Python `str.startswith`). -/
def strPrefixAt : List Char → List Char → Bool
  | [], _ => true
  | _ :: _, [] => false
  | a :: as, b :: bs => a == b && strPrefixAt as bs

/-- Python `s.startswith(p)`. -/
def pyStartswith (s p : String) : Bool :=
  strPrefixAt p.data s.data

/-- Python `s.strip()`: remove leading and trailing whitespace. -/
def pyTrim (s : String) : String :=
  ⟨((s.data.dropWhile Char.isWhitespace).reverse.dropWhile Char.isWhitespace).reverse⟩

/-- Python `len(s)`. -/
def pyLen (s : String) : Nat := s.data.length

/-- Python `len(s)` as an `Int` (for cursor arithmetic). -/
def pyLenI (s : String) : Int := (s.data.length : Int)

/-- Python `s[n:]` for a nonnegative literal index `n`. -/
def pyDropN (s : String) (n : Nat) : String := ⟨s.data.drop n⟩

/-- Python `s[:-1]`: drop the last character (empty string stays empty). -/
def pyDropLast (s : String) : String := ⟨s.data.dropLast⟩

/-- Normalisation of a (possibly negative) Python slice index against a
string of length `n`: negative indices count from the end and the result is
clamped into `[0, n]`. -/
def sliceIdx (n : Nat) (i : Int) : Nat :=
  if i < 0 then ((n : Int) + i).toNat else min i.toNat n

/-- Python `s[:j]` with an arbitrary (possibly negative) integer index. -/
def pyTakeI (s : String) (j : Int) : String :=
  ⟨s.data.take (sliceIdx s.data.length j)⟩

/-- Python `s[i:]` with an arbitrary (possibly negative) integer index. -/
def pyDropI (s : String) (i : Int) : String :=
  ⟨s.data.drop (sliceIdx s.data.length i)⟩

/-- Python `" " * n` (a negative count yields the empty string). -/
def pySpaces (n : Int) : String := ⟨List.replicate n.toNat ' '⟩

/-- Python `s.lower()`. -/
def pyLower (s : String) : String := ⟨s.data.map Char.toLower⟩

/-- Helper for `pySplitOn`: scan the character list, emitting a piece at
every (non-overlapping, leftmost) occurrence of the separator `s :: ss`.
The fuel argument bounds the recursion by the length of the scanned list;
`pySplitOn` always supplies enough of it. -/
def pySplitAux (s : Char) (ss : List Char) : Nat → List Char → List Char → List (List Char)
  | _, acc, [] => [acc]
  | 0, acc, xs => [acc ++ xs]
  | fuel + 1, acc, x :: xs =>
    if strPrefixAt (s :: ss) (x :: xs) then
      acc :: pySplitAux s ss fuel [] (xs.drop ss.length)
    else
      pySplitAux s ss fuel (acc ++ [x]) xs

/-- Python `s.split(sep)` for a nonempty literal separator (the source only
splits on `"="`, `" in "` and `","`; Python rejects an empty separator,
which is modelled as the identity split). -/
def pySplitOn (str sep : String) : List String :=
  match sep.data with
  | [] => [str]
  | s :: ss => (pySplitAux s ss str.data.length [] str.data).map fun cs => ⟨cs⟩

/-- Helper for `pyWords`: single pass with an accumulator holding the
current word reversed. -/
def pyWordsAux : List Char → List Char → List (List Char)
  | [], acc => if acc.isEmpty then [] else [acc.reverse]
  | c :: cs, acc =>
    if c.isWhitespace then
      if acc.isEmpty then pyWordsAux cs [] else acc.reverse :: pyWordsAux cs []
    else pyWordsAux cs (c :: acc)

/-- Python `s.split()` with no argument: whitespace-separated words, no
empty pieces. -/
def pyWords (s : String) : List String :=
  (pyWordsAux s.data []).map fun cs => ⟨cs⟩

/-- Decimal digit run to a number, or `none` if empty or not all digits. -/
def digitsToNat : List Char → Option Nat
  | [] => none
  | ds =>
    if ds.all Char.isDigit then
      some (ds.foldl (fun acc c => 10 * acc + (c.toNat - 48)) 0)
    else none

/-- Python `int(s)` on an already-stripped string: optional sign followed
by decimal digits (the Python underscore digit grouping is not used by any
script considered here and is not modelled). -/
def pyInt? (s : String) : Option Int :=
  match s.data with
  | '-' :: ds => (digitsToNat ds).map fun n => -(n : Int)
  | '+' :: ds => (digitsToNat ds).map fun n => (n : Int)
  | ds => (digitsToNat ds).map fun n => (n : Int)

/-- Helper for `pyReplace`: fuel-bounded scan replacing every leftmost,
non-overlapping occurrence of the pattern `p :: ps` by `rep`. -/
def pyReplaceAux (p : Char) (ps rep : List Char) : Nat → List Char → List Char
  | _, [] => []
  | 0, xs => xs
  | fuel + 1, x :: xs =>
    if strPrefixAt (p :: ps) (x :: xs) then
      rep ++ pyReplaceAux p ps rep fuel (xs.drop ps.length)
    else
      x :: pyReplaceAux p ps rep fuel xs

/-- Python `s.replace(pat, rep)`.  For an empty pattern Python interleaves
the replacement between every character, which is mirrored here. -/
def pyReplace (s pat rep : String) : String :=
  match pat.data with
  | [] => ⟨rep.data ++ s.data.flatMap fun c => c :: rep.data⟩
  | p :: ps => ⟨pyReplaceAux p ps rep.data s.data.length s.data⟩

/-- Python `str(v)` for an integer value. -/
def pyStr (v : Int) : String := toString v

/-! ### Variable environment and the external expression evaluator

The source stores variables in `self.variables`, a Python dict mutated by
`let` assignment and by the `for` loop variable; dict semantics (insertion
order preserved, update in place) are modelled by an association list.
Scalar values are modelled as integers, which covers every script the
specification discusses. -/

/-- The Environment: insertion-ordered name/value association list. -/
abbrev VarMap := List (String × Int)

/-- Python `d[name] = v` on a dict: overwrite in place if the key exists,
else append. -/
def dictAssign (vars : VarMap) (name : String) (v : Int) : VarMap :=
  if vars.any fun p => p.1 == name then
    vars.map fun p => if p.1 == name then (name, v) else p
  else vars ++ [(name, v)]

/-- Oracle for the two uses of the host `eval` builtin.
`evalExpr vars e` models `eval(e, variables)` in `process_variable_assignment`
(`none` models a raised exception, e.g. a `NameError` for an undefined
variable); `evalCond c` models `eval(c)` on an already
variable-substituted condition in `evaluate_condition`.  The CPython side
effect of inserting a `__builtins__` entry into the globals dict passed to
`eval` is not modelled; no claim below inspects the Environment after a
`let`. -/
structure Evaluator where
  evalExpr : VarMap → String → Option Int
  evalCond : String → Option Bool

/-- The variable-substitution loop of `evaluate_condition`: for each
variable in insertion order, textually replace its name by `str(value)`. -/
def substitute_variables : VarMap → String → String
  | [], cond => cond
  | (n, v) :: rest, cond => substitute_variables rest (pyReplace cond n (pyStr v))

/-- `TextEditor.evaluate_condition` (cli.py lines 266-275): substitute
variables, evaluate; an evaluation failure sets the status and yields
`False`. -/
def evaluate_condition (ev : Evaluator) (vars : VarMap) (condition : String) : Bool :=
  match ev.evalCond (substitute_variables vars condition) with
  | some b => b
  | none => false

/-- `TextEditor.process_variable_assignment` (cli.py lines 245-264) on an
already-stripped line.  `some vars2` models a `True` return with the
updated Environment; `none` models every `False` return (not a `let` line,
malformed syntax — not exactly one `=` — or failed evaluation). -/
def process_variable_assignment (ev : Evaluator) (vars : VarMap) (line : String) :
    Option VarMap :=
  if pyStartswith line "let " then
    match pySplitOn (pyTrim (pyDropN line 4)) "=" with
    | [p0, p1] =>
      match ev.evalExpr vars (pyTrim p1) with
      | some v => some (dictAssign vars (pyTrim p0) v)
      | none => none
    | _ => none
  else none

/-! ### Control-flow interpreter (`process_control_structures`) -/

/-- Python `range` length: `max 0` of the ceiling of `(b - a) / c`. -/
def pyRangeLen (a b c : Int) : Nat :=
  if 0 < c then (b - a + c - 1).toNat / c.toNat
  else (a - b + (-c) - 1).toNat / (-c).toNat

/-- Python `range(a, b, c)` as a list. -/
def pyRange (a b c : Int) : List Int :=
  (List.range (pyRangeLen a b c)).map fun k => a + c * k

/-- Python `range(*args)` for the argument list produced by the `for`
parser: 1-3 integers; zero step or any other arity raises (modelled as
`none`). -/
def rangeList : List Int → Option (List Int)
  | [n] => some (pyRange 0 n 1)
  | [a, b] => some (pyRange a b 1)
  | [a, b, c] => if c = 0 then none else some (pyRange a b c)
  | _ => none

/-- The `for` header parsing of `process_control_structures` (cli.py lines
355-362) on the stripped line: `line[4:].strip().split(" in ")` must have
exactly two parts, the second starting with `"range("`; the text between
`"range("` and the final character is split on `","` and each piece parsed
with `int(arg.strip())` (any failure raises, aborting the expansion). -/
def parseFor (line : String) : Option (String × List Int) :=
  match pySplitOn (pyTrim (pyDropN line 4)) " in " with
  | [p0, p1] =>
    if pyStartswith p1 "range(" then
      match (pySplitOn (pyDropLast (pyDropN p1 6)) ",").mapM
          (fun a => pyInt? (pyTrim a)) with
      | some args => some (pyTrim p0, args)
      | none => none
    else none
  | _ => none

/-- Terminator test of the `if` branch scan (cli.py line 302/310):
stripped line starts with `"else if "`, or equals `"else"` or `"end"`. -/
def isIfTerminator (s : String) : Bool :=
  pyStartswith s "else if " || s == "else" || s == "end"

/-- Terminator test of the `else if` branch scan (cli.py line 326/334):
stripped line equals `"else"` or `"end"`. -/
def isElifTerminator (s : String) : Bool :=
  s == "else" || s == "end"

/-- Forward scan of the inner `while` loops: split a line list at the
first line satisfying `p` (that line stays at the head of the second
component, exactly where the Python index `i` stops). -/
def splitUntil (p : String → Bool) : List String → List String × List String
  | [] => ([], [])
  | x :: xs =>
    if p x then ([], x :: xs)
    else
      let r := splitUntil p xs
      (x :: r.1, r.2)

/-- Result of processing one line of `process_control_structures`:
either the `return []` abort (an exception inside a directive handler), or
the lines appended to `processed_lines`, the updated Environment, and the
remaining lines for the outer loop. -/
inductive StepOut where
  | abort (vars : VarMap)
  | emit (out : List String) (vars : VarMap) (rest : List String)
  deriving DecidableEq

/-- One iteration of the outer `while i < len(lines)` loop of
`process_control_structures` (cli.py lines 281-389), given the current
line `l` and the lines after it. -/
def stepOnce (ev : Evaluator) (vars : VarMap) (l : String) (rest : List String) : StepOut :=
  let line := pyTrim l
  if line = "" then .emit [] vars rest
  else
    match process_variable_assignment ev vars line with
    | some vars2 => .emit [] vars2 rest
    | none =>
      if pyStartswith line "if " then
        -- lines 293-315: a taken branch appends the raw lines up to the
        -- terminator; a skipped branch scans from the `if` line itself.
        if evaluate_condition ev vars (pyTrim (pyDropN line 3)) then
          let r := splitUntil (fun x => isIfTerminator (pyTrim x)) rest
          .emit r.1 vars r.2
        else
          .emit [] vars (splitUntil (fun x => isIfTerminator (pyTrim x)) (l :: rest)).2
      else if pyStartswith line "else if " then
        -- lines 318-339
        if evaluate_condition ev vars (pyTrim (pyDropN line 8)) then
          let r := splitUntil (fun x => isElifTerminator (pyTrim x)) rest
          .emit r.1 vars r.2
        else
          .emit [] vars (splitUntil (fun x => isElifTerminator (pyTrim x)) (l :: rest)).2
      else if line = "else" then
        -- lines 342-350: append the raw lines up to the next `end`.
        let r := splitUntil (fun x => pyTrim x == "end") rest
        .emit r.1 vars r.2
      else if pyStartswith line "for " then
        -- lines 353-380: parse header, collect the body up to a line whose
        -- strip starts with "end", run the loop, then `i += 1` past that
        -- line.  Parse or `range` failures raise and abort.
        match parseFor line with
        | none => .abort vars
        | some pr =>
          match rangeList pr.2 with
          | none => .abort vars
          | some vals =>
            let r := splitUntil (fun x => pyStartswith (pyTrim x) "end") rest
            let acc := vals.foldl
              (fun (p : List String × VarMap) v => (p.1 ++ r.1, dictAssign p.2 pr.1 v))
              ([], vars)
            .emit acc.1 acc.2 r.2.tail
      else if line = "end" then .emit [] vars rest
      else .emit [line] vars rest

/-- Result of a whole expansion: the flat command list and the final
Environment, or the `return []` abort. -/
inductive ExpResult where
  | ok (out : List String) (vars : VarMap)
  | aborted (vars : VarMap)
  deriving DecidableEq

/-- Prepend already-emitted lines to the result of the remaining scan (an
abort from later in the scan discards everything, as the Python
`return []` does). -/
def ExpResult.prepend (out : List String) : ExpResult → ExpResult
  | .ok o v => .ok (out ++ o) v
  | .aborted v => .aborted v

/-- The outer loop of `process_control_structures`, iterated through
`stepOnce`.  The fuel argument bounds the number of iterations by the
number of input lines; since every iteration consumes at least one line
(`stepOnce_rest_length` below), the fuel supplied by `expand_lines` is
never exhausted. -/
def goExpand (ev : Evaluator) : Nat → VarMap → List String → ExpResult
  | 0, vars, _ => .ok [] vars
  | _ + 1, vars, [] => .ok [] vars
  | fuel + 1, vars, l :: rest =>
    match stepOnce ev vars l rest with
    | .abort vs => .aborted vs
    | .emit out vs newRest =>
      match goExpand ev fuel vs newRest with
      | .ok out2 vs2 => .ok (out ++ out2) vs2
      | .aborted vs2 => .aborted vs2

/-- `process_control_structures` at the structured level: the expansion of
a line list, keeping the abort distinct from an empty result. -/
def expand_lines (ev : Evaluator) (vars : VarMap) (lines : List String) : ExpResult :=
  goExpand ev lines.length vars lines

/-- `TextEditor.process_control_structures` (cli.py lines 277-391): the
returned `processed_lines` (an abort returns `[]`) together with the
Environment left in `self.variables`. -/
def process_control_structures (ev : Evaluator) (vars : VarMap) (lines : List String) :
    List String × VarMap :=
  match expand_lines ev vars lines with
  | .ok out vs => (out, vs)
  | .aborted vs => ([], vs)

/-- The command strings that `TextEditor.send_all_lines` (cli.py lines
393-409) forwards to the Device Sink: nothing when the expansion came back
empty, otherwise every stripped, non-blank expanded line in order. -/
def send_all_lines (ev : Evaluator) (vars : VarMap) (lines : List String) : List String :=
  let processed := (process_control_structures ev vars lines).1
  if processed = [] then []
  else (processed.map pyTrim).filter fun x => x ≠ ""

/-- Concrete `Evaluator` instance agreeing with the host `eval` on the
expression strings arising in the scripts of the specification: an
expression is an integer literal (anything else raises, e.g. a reference
to an undefined variable), and a condition is an `==` comparison of two
integer literals (after variable substitution). -/
def evalCondLit (s : String) : Option Bool :=
  match pySplitOn s " == " with
  | [a, b] =>
    match pyInt? (pyTrim a), pyInt? (pyTrim b) with
    | some x, some y => some (x == y)
    | _, _ => none
  | _ => none

/-- The concrete evaluator used for the concrete script runs. -/
def evC : Evaluator where
  evalExpr := fun _ s => pyInt? (pyTrim s)
  evalCond := evalCondLit

/-! ### The editor: buffer, cursor, modes, undo

State of `TextEditor` (cli.py lines 9-19), restricted to the fields the
editing core reads or writes: the line buffer, the cursor, the mode and
the undo history.  The column is an `Int` because the Python source can
drive it below zero (`backspace`, line 221); the line index only ever
changes under guards that keep it nonnegative, so it is a `Nat`.  The
Python history list appends snapshots at its end and pops from the end;
it is modelled most-recent-first.  `self.tab_size` is initialised to 4 and
never written, so it appears as the constant `tab_size`.  The status
string, colors and rendering state are not modelled. -/

/-- Editor mode (cli.py line 16). -/
inductive Mode where
  | NORMAL
  | INSERT
  deriving DecidableEq

/-- The modelled state of `TextEditor`. -/
structure EditorState where
  lines : List String
  current_line : Nat
  current_col : Int
  mode : Mode
  history : List (List String)
  deriving DecidableEq

/-- `self.tab_size` (cli.py line 18). -/
def tab_size : Nat := 4

/-- `self.lines[self.current_line]` (in-range for every reachable state;
out-of-range reads, which raise in Python, are modelled as `""`). -/
def curLine (e : EditorState) : String := e.lines.getD e.current_line ""

/-- `TextEditor.get_indent_level` (cli.py lines 786-788):
`len(line) - len(line.lstrip())`, i.e. the number of leading whitespace
characters. -/
def get_indent_level (line : String) : Int :=
  ((line.data.takeWhile Char.isWhitespace).length : Int)

/-- `TextEditor.enter_insert_mode` (cli.py lines 91-93). -/
def enter_insert_mode (e : EditorState) : EditorState :=
  { e with mode := .INSERT }

/-- `TextEditor.enter_insert_mode_after` (cli.py lines 95-98). -/
def enter_insert_mode_after (e : EditorState) : EditorState :=
  { e with mode := .INSERT, current_col := min (e.current_col + 1) (pyLenI (curLine e)) }

/-- `TextEditor.move_left` (cli.py lines 100-107). -/
def move_left (e : EditorState) : EditorState :=
  if e.current_col > 0 then
    let current_indent := get_indent_level (curLine e)
    if e.current_col = current_indent then
      { e with current_col := max 0 (current_indent - 4) }
    else
      { e with current_col := e.current_col - 1 }
  else e

/-- `TextEditor.move_right` (cli.py lines 109-116). -/
def move_right (e : EditorState) : EditorState :=
  if e.current_col < pyLenI (curLine e) then
    let current_indent := get_indent_level (curLine e)
    if e.current_col = current_indent - 4 then
      { e with current_col := current_indent }
    else
      { e with current_col := e.current_col + 1 }
  else e

/-- `TextEditor.move_up` (cli.py lines 118-125). -/
def move_up (e : EditorState) : EditorState :=
  if e.current_line > 0 then
    let e1 := { e with current_line := e.current_line - 1 }
    let current_indent := get_indent_level (curLine e1)
    let col := min e1.current_col (pyLenI (curLine e1))
    { e1 with current_col := if col < current_indent then current_indent else col }
  else e

/-- `TextEditor.move_down` (cli.py lines 127-134). -/
def move_down (e : EditorState) : EditorState :=
  if e.current_line < e.lines.length - 1 then
    let e1 := { e with current_line := e.current_line + 1 }
    let current_indent := get_indent_level (curLine e1)
    let col := min e1.current_col (pyLenI (curLine e1))
    { e1 with current_col := if col < current_indent then current_indent else col }
  else e

/-- `TextEditor.insert_line_below` (cli.py lines 136-141). -/
def insert_line_below (e : EditorState) : EditorState :=
  { e with lines := e.lines.insertIdx (e.current_line + 1) "",
           current_line := e.current_line + 1, current_col := 0, mode := .INSERT }

/-- `TextEditor.insert_line_above` (cli.py lines 143-147). -/
def insert_line_above (e : EditorState) : EditorState :=
  { e with lines := e.lines.insertIdx e.current_line "", current_col := 0, mode := .INSERT }

/-- `TextEditor.delete_char` (cli.py lines 149-154). -/
def delete_char (e : EditorState) : EditorState :=
  if e.current_col < pyLenI (curLine e) then
    let newl := pyTakeI (curLine e) e.current_col ++ pyDropI (curLine e) (e.current_col + 1)
    { e with lines := e.lines.set e.current_line newl }
  else e

/-- `TextEditor.delete_line` (cli.py lines 156-161). -/
def delete_line (e : EditorState) : EditorState :=
  if e.lines.length > 1 then
    let lines1 := e.lines.eraseIdx e.current_line
    let cl := if e.current_line ≥ lines1.length then lines1.length - 1 else e.current_line
    { e with lines := lines1, current_line := cl,
             current_col := min e.current_col (pyLenI (lines1.getD cl "")) }
  else e

/-- `TextEditor.handle_tab` (cli.py lines 163-173). -/
def handle_tab (e : EditorState) : EditorState :=
  if e.mode = .INSERT then
    let newl := pyTakeI (curLine e) e.current_col ++ pySpaces (tab_size : Int)
      ++ pyDropI (curLine e) e.current_col
    { e with lines := e.lines.set e.current_line newl,
             current_col := e.current_col + (tab_size : Int) }
  else e

/-- `TextEditor.auto_indent_control` (cli.py lines 175-186). -/
def auto_indent_control (line : String) : Int :=
  match pyWords line with
  | [] => 0
  | w :: _ =>
    let cmd := pyLower w
    if cmd = "if" ∨ cmd = "for" ∨ cmd = "else" then
      get_indent_level line + (tab_size : Int)
    else if cmd = "end" then max 0 (get_indent_level line - (tab_size : Int))
    else get_indent_level line

/-- `TextEditor.new_line` (cli.py lines 188-211): split the current line at
the cursor, compute the indentation of the new line from the text before
the cursor, insert it and move onto it. -/
def new_line (e : EditorState) : EditorState :=
  if e.mode = .INSERT then
    let current := curLine e
    let before_cursor := pyTakeI current e.current_col
    let after_cursor := pyDropI current e.current_col
    let lines1 := e.lines.set e.current_line before_cursor
    let indent := auto_indent_control before_cursor
    let newl := pySpaces indent ++ after_cursor
    { e with lines := lines1.insertIdx (e.current_line + 1) newl,
             current_line := e.current_line + 1, current_col := indent }
  else e

/-- `TextEditor.backspace` (cli.py lines 213-235): at the indentation
boundary delete a whole indent unit, otherwise one character; at column 0
join with the previous line. -/
def backspace (e : EditorState) : EditorState :=
  if e.mode = .INSERT then
    if e.current_col > 0 then
      let current_indent := get_indent_level (curLine e)
      if e.current_col = current_indent ∧ current_indent > 0 then
        let newl := pySpaces (current_indent - 4) ++ pyDropI (curLine e) current_indent
        { e with lines := e.lines.set e.current_line newl,
                 current_col := current_indent - 4 }
      else
        let newl := pyTakeI (curLine e) (e.current_col - 1) ++ pyDropI (curLine e) e.current_col
        { e with lines := e.lines.set e.current_line newl,
                 current_col := e.current_col - 1 }
    else if e.current_line > 0 then
      let prev := e.lines.getD (e.current_line - 1) ""
      let lines1 := e.lines.set (e.current_line - 1) (prev ++ curLine e)
      { e with lines := lines1.eraseIdx e.current_line,
               current_line := e.current_line - 1, current_col := pyLenI prev }
    else e
  else e

/-- `TextEditor.save_state` (cli.py lines 680-682): push a full copy of the
line sequence (modelled most-recent-first). -/
def save_state (e : EditorState) : EditorState :=
  { e with history := e.lines :: e.history }

/-- `TextEditor.undo` (cli.py lines 684-693): pop the most recent snapshot
if any, restore it, and clamp the cursor from above. -/
def undo (e : EditorState) : EditorState :=
  match e.history with
  | [] => e
  | h :: t =>
    let cl := min e.current_line (h.length - 1)
    { e with lines := h, history := t, current_line := cl,
             current_col := min e.current_col (pyLenI (h.getD cl "")) }

/-- `TextEditor.move_to_end_and_insert` (cli.py lines 776-779). -/
def move_to_end_and_insert (e : EditorState) : EditorState :=
  { e with current_col := pyLenI (curLine e), mode := .INSERT }

/-- `TextEditor.move_to_start_and_insert` (cli.py lines 781-784). -/
def move_to_start_and_insert (e : EditorState) : EditorState :=
  { e with current_col := 0, mode := .INSERT }

/-- The printable-character insertion inlined in `run` (cli.py lines
760-768). -/
def insert_char (e : EditorState) (c : Char) : EditorState :=
  let newl := pyTakeI (curLine e) e.current_col ++ (⟨[c]⟩ : String)
    ++ pyDropI (curLine e) e.current_col
  { e with lines := e.lines.set e.current_line newl,
           current_col := e.current_col + 1 }

/-- Key events of the `run` loop.  `char c` covers both the printable
INSERT-mode characters and the NORMAL-mode command keys of
`self.commands`; the arrow keys, tab, escape, enter and backspace are the
special key codes `run` handles. -/
inductive Key where
  | char (c : Char)
  | enter
  | backspace
  | tab
  | esc
  | up
  | down
  | left
  | right
  deriving DecidableEq

/-- NORMAL-mode dispatch through `self.commands` (cli.py lines 70-89).
The keys `s`, `S` and `:` are modelled as the identity on the editor
state: they only talk to the Device Sink or the command line and mutate
none of the modelled fields.  (The help key `?` never reaches this
dispatch: `run` intercepts it earlier, see `step`.) -/
def normal_command (e : EditorState) (c : Char) : EditorState :=
  if c = 'i' then enter_insert_mode e
  else if c = 'a' then enter_insert_mode_after e
  else if c = 'h' then move_left e
  else if c = 'j' then move_down e
  else if c = 'k' then move_up e
  else if c = 'l' then move_right e
  else if c = 'o' then insert_line_below e
  else if c = 'O' then insert_line_above e
  else if c = 'x' then delete_char e
  else if c = 'd' then delete_line e
  else if c = 'A' then move_to_end_and_insert e
  else if c = 'I' then move_to_start_and_insert e
  else if c = 'u' then undo e
  else e

/-- One iteration of the `run` key loop (cli.py lines 702-774): arrow
keys, tab and escape are handled for both modes, and the help key `?`
is intercepted (cli.py lines 722-725) before the mode dispatch — it only
shows the help window and `continue`s, leaving every modelled field
untouched in either mode.  In INSERT mode, enter, backspace and the other
printable characters first `save_state` and then mutate; in NORMAL mode
the key is dispatched through `self.commands` (where enter and backspace
map to `new_line` and `backspace`, both of which are no-ops outside
INSERT mode). -/
def step (e : EditorState) (k : Key) : EditorState :=
  match k with
  | .up => move_up e
  | .down => move_down e
  | .left => move_left e
  | .right => move_right e
  | .tab => handle_tab e
  | .esc => if e.mode = .INSERT then { e with mode := .NORMAL } else e
  | .enter => if e.mode = .INSERT then new_line (save_state e) else new_line e
  | .backspace => if e.mode = .INSERT then backspace (save_state e) else backspace e
  | .char c =>
    if c = '?' then e
    else if e.mode = .INSERT then
      if 32 ≤ c.toNat ∧ c.toNat ≤ 126 then insert_char (save_state e) c else e
    else normal_command e c

/-- The initial editor state (cli.py lines 12-17): one empty line, cursor
at the origin, NORMAL mode, empty history. -/
def init : EditorState :=
  { lines := [""], current_line := 0, current_col := 0, mode := .NORMAL, history := [] }

/-- Run a sequence of key events from a state. -/
def runKeys (e : EditorState) (ks : List Key) : EditorState :=
  ks.foldl step e

/-- The editor states reachable from the initial state through key
events. -/
inductive Reachable : EditorState → Prop
  | init : Reachable init
  | step {e : EditorState} (k : Key) : Reachable e → Reachable (step e k)

/-- The structural invariant of reachable editor states: a nonempty
buffer, an in-range line index, and only nonempty snapshots on the undo
stack.  (The column is deliberately absent: the source can drive it
negative.) -/
structure Inv (e : EditorState) : Prop where
  ne : e.lines ≠ []
  lt : e.current_line < e.lines.length
  hist : ∀ h ∈ e.history, h ≠ []

/-- What `undo` does right after a state `t` arises from `e` by a captured
mutation: the line sequence and the undo stack of `e` come back exactly,
and the cursor of `t` is clamped from above (and only from above) against
the restored buffer. -/
def undo_restores (e t : EditorState) : Prop :=
  (undo t).lines = e.lines ∧ (undo t).history = e.history ∧
  (undo t).current_line = min t.current_line (e.lines.length - 1) ∧
  (undo t).current_col
    = min t.current_col
        (pyLenI (e.lines.getD (min t.current_line (e.lines.length - 1)) ""))

/-! ### Lemmas about the control-flow interpreter -/

theorem strPrefixAt_iff (p xs : List Char) :
    strPrefixAt p xs = true ↔ ∃ t, xs = p ++ t := by
  induction p generalizing xs with
  | nil => simp [strPrefixAt]
  | cons a as ih =>
    cases xs with
    | nil => simp [strPrefixAt]
    | cons b bs =>
      simp only [strPrefixAt, Bool.and_eq_true, beq_iff_eq, ih, List.cons_append,
        List.cons.injEq]
      constructor
      · rintro ⟨rfl, t, rfl⟩
        exact ⟨t, rfl, rfl⟩
      · rintro ⟨t, rfl, rfl⟩
        exact ⟨rfl, t, rfl⟩

theorem pyStartswith_shape {s p : String} (h : pyStartswith s p = true) :
    ∃ t, s.data = p.data ++ t :=
  (strPrefixAt_iff p.data s.data).mp h

theorem splitUntil_snd_length (p : String → Bool) (ls : List String) :
    (splitUntil p ls).2.length ≤ ls.length := by
  induction ls with
  | nil => simp [splitUntil]
  | cons x xs ih =>
    simp only [splitUntil]
    split
    · simp
    · simpa using Nat.le_succ_of_le ih

theorem splitUntil_cons_false (p : String → Bool) (x : String) (xs : List String)
    (h : p x = false) :
    splitUntil p (x :: xs) = (x :: (splitUntil p xs).1, (splitUntil p xs).2) := by
  simp [splitUntil, h]

theorem splitUntil_eq_of_none {p : String → Bool} {ls : List String}
    (h : ∀ x ∈ ls, p x = false) : splitUntil p ls = (ls, []) := by
  induction ls with
  | nil => rfl
  | cons x xs ih =>
    rw [splitUntil_cons_false p x xs (h x (by simp))]
    rw [ih fun y hy => h y (by simp [hy])]

theorem splitUntil_eq_of_first {p : String → Bool} {body : List String} {e : String}
    (rest : List String) (hb : ∀ x ∈ body, p x = false) (he : p e = true) :
    splitUntil p (body ++ e :: rest) = (body, e :: rest) := by
  induction body with
  | nil => simp [splitUntil, he]
  | cons x xs ih =>
    rw [List.cons_append, splitUntil_cons_false p x _ (hb x (by simp))]
    rw [ih fun y hy => hb y (by simp [hy])]

/-- The accumulation of the `for` execution loop in closed form: the body
is appended once per range value and the loop variable is bound once per
range value. -/
theorem loop_foldl_eq (vals : List Int) (body : List String) (name : String)
    (out0 : List String) (vs0 : VarMap) :
    vals.foldl (fun (p : List String × VarMap) v => (p.1 ++ body, dictAssign p.2 name v))
        (out0, vs0)
      = (out0 ++ (vals.map fun _ => body).flatten,
         vals.foldl (fun vs v => dictAssign vs name v) vs0) := by
  induction vals generalizing out0 vs0 with
  | nil => simp
  | cons v vs ih => simp [ih, List.append_assoc]

/-- A line whose strip starts with `"if "` satisfies none of the
terminator tests of the branch scans. -/
theorem not_terminator_of_if {s : String} (h : pyStartswith s "if " = true) :
    isIfTerminator s = false := by
  obtain ⟨t, ht⟩ := pyStartswith_shape h
  have hd : ("if " : String).data = ['i', 'f', ' '] := rfl
  rw [hd] at ht
  have h1 : pyStartswith s "else if " = false := by
    simp only [pyStartswith]
    rw [ht]
    rfl
  have h2 : (s == "else") = false := by
    rw [beq_eq_false_iff_ne]
    intro hs
    rw [hs] at ht
    simp at ht
  have h3 : (s == "end") = false := by
    rw [beq_eq_false_iff_ne]
    intro hs
    rw [hs] at ht
    simp at ht
  simp [isIfTerminator, h1, h2, h3]

/-- A line whose strip starts with `"else if "` satisfies neither
terminator test of the `else if` branch scan. -/
theorem not_terminator_of_elif {s : String} (h : pyStartswith s "else if " = true) :
    isElifTerminator s = false := by
  obtain ⟨t, ht⟩ := pyStartswith_shape h
  have hd : ("else if " : String).data = ['e', 'l', 's', 'e', ' ', 'i', 'f', ' '] := rfl
  rw [hd] at ht
  have h2 : (s == "else") = false := by
    rw [beq_eq_false_iff_ne]
    intro hs
    rw [hs] at ht
    simp at ht
  have h3 : (s == "end") = false := by
    rw [beq_eq_false_iff_ne]
    intro hs
    rw [hs] at ht
    simp at ht
  simp [isElifTerminator, h2, h3]

/-- Every iteration of the outer scan consumes at least the current line:
the remaining lines it hands back are no more than the lines after it. -/
theorem stepOnce_rest_length {ev : Evaluator} {vars : VarMap} {l : String}
    {rest out : List String} {vs : VarMap} {newRest : List String}
    (h : stepOnce ev vars l rest = .emit out vs newRest) :
    newRest.length ≤ rest.length := by
  simp only [stepOnce] at h
  split at h
  · cases h; exact le_refl _
  split at h
  · cases h; exact le_refl _
  split at h
  · -- `if ` branch
    rename_i hif
    split at h
    · cases h; exact splitUntil_snd_length _ _
    · cases h
      rw [splitUntil_cons_false (fun x => isIfTerminator (pyTrim x)) l rest
        (not_terminator_of_if hif)]
      exact splitUntil_snd_length _ _
  split at h
  · -- `else if ` branch
    rename_i helif
    split at h
    · cases h; exact splitUntil_snd_length _ _
    · cases h
      rw [splitUntil_cons_false (fun x => isElifTerminator (pyTrim x)) l rest
        (not_terminator_of_elif helif)]
      exact splitUntil_snd_length _ _
  split at h
  · -- `else` branch
    cases h; exact splitUntil_snd_length _ _
  split at h
  · -- `for ` branch
    split at h
    · cases h
    split at h
    · cases h
    cases h
    have h2 := splitUntil_snd_length (fun x => pyStartswith (pyTrim x) "end") rest
    simp only [List.length_tail]
    omega
  split at h
  · cases h; exact le_refl _
  · cases h; exact le_refl _

/-- The fuel supplied to `goExpand` is irrelevant as soon as it dominates
the number of remaining lines. -/
theorem goExpand_fuel (ev : Evaluator) :
    ∀ fuel : Nat, ∀ vars : VarMap, ∀ ls : List String, ls.length ≤ fuel →
      goExpand ev fuel vars ls = goExpand ev ls.length vars ls := by
  intro fuel
  induction fuel using Nat.strong_induction_on with
  | _ fuel ih =>
    intro vars ls hle
    match fuel, ls with
    | 0, [] => rfl
    | 0, l :: rest => simp at hle
    | f + 1, [] => rfl
    | f + 1, l :: rest =>
      have hr : rest.length ≤ f := by simpa using hle
      simp only [List.length_cons, goExpand]
      cases hso : stepOnce ev vars l rest with
      | abort vs => rfl
      | emit out vs newRest =>
        have h1 : newRest.length ≤ rest.length := stepOnce_rest_length hso
        dsimp only
        rw [ih f (by omega) vs newRest (by omega),
          ih rest.length (by omega) vs newRest (by omega)]

/-- Peeling one processed line off an expansion. -/
theorem expand_cons_emit {ev : Evaluator} {vars : VarMap} {l : String}
    {rest out : List String} {vs : VarMap} {newRest : List String}
    (h : stepOnce ev vars l rest = .emit out vs newRest) :
    expand_lines ev vars (l :: rest) = (expand_lines ev vs newRest).prepend out := by
  unfold expand_lines
  simp only [List.length_cons, goExpand, h]
  rw [goExpand_fuel ev rest.length vs newRest (stepOnce_rest_length h)]
  cases goExpand ev newRest.length vs newRest <;> rfl

/-- A `let` line on which `process_variable_assignment` fails is handled
by the final catch-all branch: the stripped line is emitted verbatim and
the scan moves on, with the Environment unchanged. -/
theorem stepOnce_let_fail {ev : Evaluator} {vars : VarMap} {l : String}
    (rest : List String)
    (h1 : pyStartswith (pyTrim l) "let " = true)
    (h2 : process_variable_assignment ev vars (pyTrim l) = none) :
    stepOnce ev vars l rest = .emit [pyTrim l] vars rest := by
  obtain ⟨t, ht⟩ := pyStartswith_shape h1
  have hd : ("let " : String).data = ['l', 'e', 't', ' '] := rfl
  rw [hd] at ht
  have hne : ¬pyTrim l = "" := by intro hq; rw [hq] at ht; simp at ht
  have hif : pyStartswith (pyTrim l) "if " = false := by
    simp only [pyStartswith]; rw [ht]; rfl
  have helif : pyStartswith (pyTrim l) "else if " = false := by
    simp only [pyStartswith]; rw [ht]; rfl
  have hfor : pyStartswith (pyTrim l) "for " = false := by
    simp only [pyStartswith]; rw [ht]; rfl
  have helse : ¬pyTrim l = "else" := by intro hq; rw [hq] at ht; simp at ht
  have hend : ¬pyTrim l = "end" := by intro hq; rw [hq] at ht; simp at ht
  simp [stepOnce, hne, h2, hif, helif, hfor, helse, hend]

/-- A well-formed `for` header is executed by the `for` branch: the body
collected up to the first line whose strip starts with `"end"` is emitted
once per range value, every range value is bound to the loop variable in
order, and the scan resumes after the terminating line. -/
theorem stepOnce_for (ev : Evaluator) (vars : VarMap) (rest : List String)
    {l v : String} {args vals : List Int}
    (hfor : pyStartswith (pyTrim l) "for " = true)
    (hparse : parseFor (pyTrim l) = some (v, args))
    (hrange : rangeList args = some vals) :
    stepOnce ev vars l rest =
      .emit ((vals.map fun _ =>
            (splitUntil (fun x => pyStartswith (pyTrim x) "end") rest).1).flatten)
        (vals.foldl (fun vs w => dictAssign vs v w) vars)
        ((splitUntil (fun x => pyStartswith (pyTrim x) "end") rest).2.tail) := by
  obtain ⟨t, ht⟩ := pyStartswith_shape hfor
  have hd : ("for " : String).data = ['f', 'o', 'r', ' '] := rfl
  rw [hd] at ht
  have hne : ¬pyTrim l = "" := by intro hq; rw [hq] at ht; simp at ht
  have hlet : pyStartswith (pyTrim l) "let " = false := by
    simp only [pyStartswith]; rw [ht]; rfl
  have hpva : process_variable_assignment ev vars (pyTrim l) = none := by
    simp [process_variable_assignment, hlet]
  have hif : pyStartswith (pyTrim l) "if " = false := by
    simp only [pyStartswith]; rw [ht]; rfl
  have helif : pyStartswith (pyTrim l) "else if " = false := by
    simp only [pyStartswith]; rw [ht]; rfl
  have helse : ¬pyTrim l = "else" := by intro hq; rw [hq] at ht; simp at ht
  simp [stepOnce, hne, hpva, hif, helif, helse, hfor, hparse, hrange, loop_foldl_eq]

/-! ### Claims about the control-flow interpreter -/

/-- C1: the claimed branch exclusivity fails on the code.  Evaluating the
two scripts of the claim shows that after the `if x == 3` branch is taken
(respectively after the `else if x == 2` branch is taken) the scan resumes
at the `else` line and unconditionally appends its body as well: expansion
yields `["a", "b"]` rather than the claimed `["a"]`, and `["c", "d"]`
rather than the claimed `["c"]`. -/
theorem C1_theorem :
    (process_control_structures evC []
        ["let x = 3", "if x == 3", "a", "else", "b", "end"]).1 = ["a", "b"] ∧
    (process_control_structures evC []
        ["let x = 2", "if x == 3", "a", "else if x == 2", "c", "else", "d", "end"]).1
      = ["c", "d"] := by
  decide

/-- C2 counterexample: a malformed `let` (two `=`) and a `let` whose
expression evaluation fails (undefined variable) do not make the expansion
empty — the failing `let` line itself is emitted as a literal command and
the rest of the script is still processed, so `send_all_lines` forwards
commands (including the bad `let` line) to the Device Sink. -/
theorem C2_counterexample :
    (process_control_structures evC [] ["let x = = 3", "gpio_on"]).1
        = ["let x = = 3", "gpio_on"] ∧
    send_all_lines evC [] ["let x = = 3", "gpio_on"] = ["let x = = 3", "gpio_on"] ∧
    (process_control_structures evC [] ["let y = x + 1", "gpio_on"]).1
        = ["let y = x + 1", "gpio_on"] := by
  decide

/-- C2 (amended): a line beginning with `let ` on which
`process_variable_assignment` fails (malformed syntax or failed
evaluation) does not abort the expansion: the stripped line is appended to
the output as a literal command, the Environment is unchanged, and the
scan continues with the remaining lines. -/
theorem C2_theorem (ev : Evaluator) (vars : VarMap) (l : String) (rest : List String)
    (h1 : pyStartswith (pyTrim l) "let " = true)
    (h2 : process_variable_assignment ev vars (pyTrim l) = none) :
    expand_lines ev vars (l :: rest) = (expand_lines ev vars rest).prepend [pyTrim l] :=
  expand_cons_emit (stepOnce_let_fail rest h1 h2)

/-- C2 witness: the amended statement at the malformed `let x = = 3`. -/
theorem C2_witness :
    expand_lines evC [] ["let x = = 3", "gpio_on"]
      = (expand_lines evC [] ["gpio_on"]).prepend [pyTrim "let x = = 3"] :=
  C2_theorem evC [] "let x = = 3" ["gpio_on"] (by decide) (by decide)

/-- C4 counterexample: a `for` loop whose `end` is missing does not abort:
`for i in range(2)` followed only by `gpio_on` expands to two copies of
the body, not to the empty sequence the claim requires. -/
theorem C4_counterexample :
    (process_control_structures evC [] ["for i in range(2)", "gpio_on"]).1
      = ["gpio_on", "gpio_on"] := by
  decide

/-- C4 (amended): a `for` directive with a well-formed header and no
matching `end` among the following lines does not abort the expansion.
The inner scan simply runs off the end of the buffer, so the whole
remainder of the script becomes the loop body and is emitted once per
range value, with the loop variable bound to every range value in
order. -/
theorem C4_theorem (ev : Evaluator) (vars : VarMap) (l : String) (rest : List String)
    (v : String) (args vals : List Int)
    (hfor : pyStartswith (pyTrim l) "for " = true)
    (hparse : parseFor (pyTrim l) = some (v, args))
    (hrange : rangeList args = some vals)
    (hbody : ∀ x ∈ rest, pyStartswith (pyTrim x) "end" = false) :
    expand_lines ev vars (l :: rest)
      = .ok ((vals.map fun _ => rest).flatten)
          (vals.foldl (fun vs w => dictAssign vs v w) vars) := by
  have hsplit : splitUntil (fun x => pyStartswith (pyTrim x) "end") rest = (rest, []) :=
    splitUntil_eq_of_none hbody
  have hstep := stepOnce_for ev vars rest hfor hparse hrange
  rw [hsplit] at hstep
  rw [expand_cons_emit hstep]
  simp [expand_lines, goExpand, ExpResult.prepend]

/-- C4 witness: the amended statement at `for i in range(3)` with body
`gpio_on` and no `end`. -/
theorem C4_witness :
    expand_lines evC [] ["for i in range(3)", "gpio_on"]
      = .ok ((([0, 1, 2] : List Int).map fun _ => ["gpio_on"]).flatten)
          (([0, 1, 2] : List Int).foldl (fun vs w => dictAssign vs "i" w) []) :=
  C4_theorem evC [] "for i in range(3)" ["gpio_on"] "i" [3] [0, 1, 2]
    (by decide) (by decide) (by decide) (by decide)

/-- C5: `for i in range(5)` with body `gpio_on` expands to exactly five
`gpio_on` in order and leaves `i = 4` in the Environment;
`range(2, 6, 2)` produces the bindings `2` then `4` (two iterations) and
the body is appended once per binding in that order, again leaving
`i = 4`.  The evaluator oracle is arbitrary: no expression is ever
evaluated while expanding these scripts. -/
theorem C5_theorem (ev : Evaluator) :
    process_control_structures ev [] ["for i in range(5)", "gpio_on", "end"]
        = (["gpio_on", "gpio_on", "gpio_on", "gpio_on", "gpio_on"], [("i", 4)]) ∧
    rangeList [2, 6, 2] = some [2, 4] ∧
    process_control_structures ev [] ["for i in range(2, 6, 2)", "gpio_on", "end"]
        = (["gpio_on", "gpio_on"], [("i", 4)]) :=
  ⟨rfl, rfl, rfl⟩

/-- C5 witness: the statement at the concrete evaluator. -/
theorem C5_witness :
    process_control_structures evC [] ["for i in range(5)", "gpio_on", "end"]
        = (["gpio_on", "gpio_on", "gpio_on", "gpio_on", "gpio_on"], [("i", 4)]) ∧
    rangeList [2, 6, 2] = some [2, 4] ∧
    process_control_structures evC [] ["for i in range(2, 6, 2)", "gpio_on", "end"]
        = (["gpio_on", "gpio_on"], [("i", 4)]) :=
  C5_theorem evC

/-- C9: the body of a `for` loop is collected verbatim (every line up to
the first one whose strip starts with `"end"`) and appended as literal
text once per range value; the body lines are never fed back through the
directive dispatch, whatever they contain — in particular nested `if` or
`for` lines are emitted as text.  The scan resumes after the terminating
line with only the loop-variable bindings added to the Environment. -/
theorem C9_theorem (ev : Evaluator) (vars : VarMap) (l endLine : String)
    (body rest : List String) (v : String) (args vals : List Int)
    (hfor : pyStartswith (pyTrim l) "for " = true)
    (hparse : parseFor (pyTrim l) = some (v, args))
    (hrange : rangeList args = some vals)
    (hbody : ∀ x ∈ body, pyStartswith (pyTrim x) "end" = false)
    (hend : pyStartswith (pyTrim endLine) "end" = true) :
    expand_lines ev vars (l :: (body ++ endLine :: rest))
      = (expand_lines ev (vals.foldl (fun vs w => dictAssign vs v w) vars) rest).prepend
          ((vals.map fun _ => body).flatten) := by
  have hsplit : splitUntil (fun x => pyStartswith (pyTrim x) "end")
      (body ++ endLine :: rest) = (body, endLine :: rest) :=
    splitUntil_eq_of_first rest hbody hend
  have hstep := stepOnce_for ev vars (body ++ endLine :: rest) hfor hparse hrange
  rw [hsplit] at hstep
  exact expand_cons_emit hstep

/-- C9 witness: a `for` body consisting of the nested directive line
`if x == 3` is emitted as literal text on both iterations. -/
theorem C9_witness :
    expand_lines evC [] ("for i in range(2)" :: (["if x == 3"] ++ "end" :: []))
      = (expand_lines evC
            (([0, 1] : List Int).foldl (fun vs w => dictAssign vs "i" w) []) []).prepend
          ((([0, 1] : List Int).map fun _ => ["if x == 3"]).flatten) :=
  C9_theorem evC [] "for i in range(2)" "end" ["if x == 3"] [] "i" [2] [0, 1]
    (by decide) (by decide) (by decide) (by decide) (by decide)

/-! ### Lemmas about the editor -/

theorem history_move_left (e : EditorState) : (move_left e).history = e.history := by
  simp only [move_left]; split_ifs <;> rfl

theorem history_move_right (e : EditorState) : (move_right e).history = e.history := by
  simp only [move_right]; split_ifs <;> rfl

theorem history_move_up (e : EditorState) : (move_up e).history = e.history := by
  simp only [move_up]; split_ifs <;> rfl

theorem history_move_down (e : EditorState) : (move_down e).history = e.history := by
  simp only [move_down]; split_ifs <;> rfl

theorem history_delete_char (e : EditorState) : (delete_char e).history = e.history := by
  simp only [delete_char]; split_ifs <;> rfl

theorem history_delete_line (e : EditorState) : (delete_line e).history = e.history := by
  simp only [delete_line]; split_ifs <;> rfl

theorem history_handle_tab (e : EditorState) : (handle_tab e).history = e.history := by
  simp only [handle_tab]; split_ifs <;> rfl

theorem history_new_line (e : EditorState) : (new_line e).history = e.history := by
  simp only [new_line]; split_ifs <;> rfl

theorem history_backspace (e : EditorState) : (backspace e).history = e.history := by
  simp only [backspace]; split_ifs <;> rfl

theorem history_insert_char (e : EditorState) (c : Char) :
    (insert_char e c).history = e.history := rfl

/-- A printable character other than the intercepted help key `?` pushes
the pre-mutation line sequence before inserting in INSERT mode. -/
theorem step_char_push (e : EditorState) (c : Char) (hm : e.mode = Mode.INSERT)
    (hq : c ≠ '?') (hc1 : 32 ≤ c.toNat) (hc2 : c.toNat ≤ 126) :
    (step e (Key.char c)).history = e.lines :: e.history := by
  simp only [step, hm, hq, hc1, hc2, and_self, if_true, if_neg hq, reduceIte]
  rfl

/-- Enter in INSERT mode pushes the pre-mutation line sequence before the
split. -/
theorem step_enter_push (e : EditorState) (hm : e.mode = Mode.INSERT) :
    (step e Key.enter).history = e.lines :: e.history := by
  simp only [step, hm, reduceIte]
  rw [history_new_line]
  rfl

/-- Backspace in INSERT mode pushes the pre-mutation line sequence before
mutating. -/
theorem step_backspace_push (e : EditorState) (hm : e.mode = Mode.INSERT) :
    (step e Key.backspace).history = e.lines :: e.history := by
  simp only [step, hm, reduceIte]
  rw [history_backspace]
  rfl

/-- The tab key never touches the undo stack. -/
theorem step_tab_history (e : EditorState) : (step e Key.tab).history = e.history := by
  simp only [step]
  exact history_handle_tab e

/-- `undo` right after any push-then-mutate step is the exact inverse on
the line sequence and the stack, clamping the cursor only from above. -/
theorem undo_of_push {e t : EditorState} (hl : t.history = e.lines :: e.history) :
    undo_restores e t := by
  unfold undo_restores undo
  rw [hl]
  exact ⟨rfl, rfl, rfl, rfl⟩

theorem Inv_move_left (e : EditorState) (hi : Inv e) : Inv (move_left e) := by
  simp only [move_left]; split_ifs <;> exact ⟨hi.ne, hi.lt, hi.hist⟩

theorem Inv_move_right (e : EditorState) (hi : Inv e) : Inv (move_right e) := by
  simp only [move_right]; split_ifs <;> exact ⟨hi.ne, hi.lt, hi.hist⟩

theorem Inv_move_up (e : EditorState) (hi : Inv e) : Inv (move_up e) := by
  obtain ⟨h1, h2, h3⟩ := hi
  simp only [move_up]
  split_ifs with hc hlow
  · refine ⟨h1, ?_, h3⟩
    dsimp only
    omega
  · refine ⟨h1, ?_, h3⟩
    dsimp only
    omega
  · exact ⟨h1, h2, h3⟩

theorem Inv_move_down (e : EditorState) (hi : Inv e) : Inv (move_down e) := by
  obtain ⟨h1, h2, h3⟩ := hi
  simp only [move_down]
  split_ifs with hc hlow
  · refine ⟨h1, ?_, h3⟩
    dsimp only
    omega
  · refine ⟨h1, ?_, h3⟩
    dsimp only
    omega
  · exact ⟨h1, h2, h3⟩

theorem Inv_insert_line_below (e : EditorState) (hi : Inv e) :
    Inv (insert_line_below e) := by
  obtain ⟨h1, h2, h3⟩ := hi
  have hlen : (e.lines.insertIdx (e.current_line + 1) "").length = e.lines.length + 1 :=
    List.length_insertIdx (e.current_line + 1) e.lines (by omega)
  refine ⟨?_, ?_, h3⟩
  · apply List.length_pos.mp
    dsimp only [insert_line_below]
    omega
  · dsimp only [insert_line_below]
    omega

theorem Inv_insert_line_above (e : EditorState) (hi : Inv e) :
    Inv (insert_line_above e) := by
  obtain ⟨h1, h2, h3⟩ := hi
  have hlen : (e.lines.insertIdx e.current_line "").length = e.lines.length + 1 :=
    List.length_insertIdx e.current_line e.lines (by omega)
  refine ⟨?_, ?_, h3⟩
  · apply List.length_pos.mp
    dsimp only [insert_line_above]
    omega
  · dsimp only [insert_line_above]
    omega

theorem Inv_delete_char (e : EditorState) (hi : Inv e) : Inv (delete_char e) := by
  obtain ⟨h1, h2, h3⟩ := hi
  have h1L : 0 < e.lines.length := List.length_pos.mpr h1
  simp only [delete_char]
  split_ifs
  · refine ⟨?_, ?_, h3⟩
    · apply List.length_pos.mp
      dsimp only
      rw [List.length_set]
      omega
    · dsimp only
      rw [List.length_set]
      omega
  · exact ⟨h1, h2, h3⟩

theorem Inv_delete_line (e : EditorState) (hi : Inv e) : Inv (delete_line e) := by
  obtain ⟨h1, h2, h3⟩ := hi
  have h4 : (e.lines.eraseIdx e.current_line).length + 1 = e.lines.length :=
    List.length_eraseIdx_add_one h2
  simp only [delete_line]
  split_ifs with hgt hge
  · refine ⟨?_, ?_, h3⟩
    · apply List.length_pos.mp
      dsimp only
      omega
    · dsimp only
      omega
  · refine ⟨?_, ?_, h3⟩
    · apply List.length_pos.mp
      dsimp only
      omega
    · dsimp only
      omega
  · exact ⟨h1, h2, h3⟩

theorem Inv_handle_tab (e : EditorState) (hi : Inv e) : Inv (handle_tab e) := by
  obtain ⟨h1, h2, h3⟩ := hi
  have h1L : 0 < e.lines.length := List.length_pos.mpr h1
  simp only [handle_tab]
  split_ifs
  · refine ⟨?_, ?_, h3⟩
    · apply List.length_pos.mp
      dsimp only
      rw [List.length_set]
      omega
    · dsimp only
      rw [List.length_set]
      omega
  · exact ⟨h1, h2, h3⟩

theorem Inv_new_line (e : EditorState) (hi : Inv e) : Inv (new_line e) := by
  obtain ⟨h1, h2, h3⟩ := hi
  simp only [new_line]
  split_ifs
  · have hlen : ∀ nl : String,
        ((e.lines.set e.current_line (pyTakeI (curLine e) e.current_col)).insertIdx
          (e.current_line + 1) nl).length = e.lines.length + 1 := by
      intro nl
      rw [List.length_insertIdx _ _ (by rw [List.length_set]; omega)]
      rw [List.length_set]
    refine ⟨?_, ?_, h3⟩
    · apply List.length_pos.mp
      dsimp only
      rw [hlen]
      omega
    · dsimp only
      rw [hlen]
      omega
  · exact ⟨h1, h2, h3⟩

theorem Inv_backspace (e : EditorState) (hi : Inv e) : Inv (backspace e) := by
  obtain ⟨h1, h2, h3⟩ := hi
  have h1L : 0 < e.lines.length := List.length_pos.mpr h1
  simp only [backspace]
  split_ifs with hm hc hbd hcl
  · refine ⟨?_, ?_, h3⟩
    · apply List.length_pos.mp
      dsimp only
      rw [List.length_set]
      omega
    · dsimp only
      rw [List.length_set]
      omega
  · refine ⟨?_, ?_, h3⟩
    · apply List.length_pos.mp
      dsimp only
      rw [List.length_set]
      omega
    · dsimp only
      rw [List.length_set]
      omega
  · -- join with the previous line: the current line is removed
    have h4 : ((e.lines.set (e.current_line - 1)
          (e.lines.getD (e.current_line - 1) "" ++ curLine e)).eraseIdx
            e.current_line).length + 1
        = e.lines.length := by
      rw [List.length_eraseIdx_add_one (by rw [List.length_set]; omega)]
      rw [List.length_set]
    refine ⟨?_, ?_, h3⟩
    · apply List.length_pos.mp
      dsimp only
      omega
    · dsimp only
      omega
  · exact ⟨h1, h2, h3⟩
  · exact ⟨h1, h2, h3⟩

theorem Inv_save_state (e : EditorState) (hi : Inv e) : Inv (save_state e) := by
  obtain ⟨h1, h2, h3⟩ := hi
  refine ⟨h1, h2, ?_⟩
  intro x hx
  rcases List.mem_cons.mp hx with rfl | hx2
  · exact h1
  · exact h3 x hx2

theorem Inv_insert_char (e : EditorState) (c : Char) (hi : Inv e) :
    Inv (insert_char e c) := by
  obtain ⟨h1, h2, h3⟩ := hi
  have h1L : 0 < e.lines.length := List.length_pos.mpr h1
  refine ⟨?_, ?_, h3⟩
  · apply List.length_pos.mp
    simp only [insert_char, List.length_set]
    omega
  · simp only [insert_char, List.length_set]
    omega

theorem Inv_undo (e : EditorState) (hi : Inv e) : Inv (undo e) := by
  obtain ⟨h1, h2, h3⟩ := hi
  unfold undo
  cases hh : e.history with
  | nil => exact ⟨h1, h2, h3⟩
  | cons h t =>
    have h4 : h ≠ [] := h3 h (by rw [hh]; exact List.mem_cons_self h t)
    have h5 : 0 < h.length := List.length_pos.mpr h4
    refine ⟨h4, ?_, ?_⟩
    · dsimp only
      omega
    · intro x hx
      exact h3 x (by rw [hh]; exact List.mem_cons_of_mem h hx)

theorem Inv_enter_insert_mode (e : EditorState) (hi : Inv e) :
    Inv (enter_insert_mode e) := ⟨hi.ne, hi.lt, hi.hist⟩

theorem Inv_enter_insert_mode_after (e : EditorState) (hi : Inv e) :
    Inv (enter_insert_mode_after e) := ⟨hi.ne, hi.lt, hi.hist⟩

theorem Inv_move_to_end_and_insert (e : EditorState) (hi : Inv e) :
    Inv (move_to_end_and_insert e) := ⟨hi.ne, hi.lt, hi.hist⟩

theorem Inv_move_to_start_and_insert (e : EditorState) (hi : Inv e) :
    Inv (move_to_start_and_insert e) := ⟨hi.ne, hi.lt, hi.hist⟩

theorem Inv_normal_command (e : EditorState) (c : Char) (hi : Inv e) :
    Inv (normal_command e c) := by
  unfold normal_command
  by_cases h1 : c = 'i'
  · rw [if_pos h1]; exact Inv_enter_insert_mode e hi
  rw [if_neg h1]
  by_cases h2 : c = 'a'
  · rw [if_pos h2]; exact Inv_enter_insert_mode_after e hi
  rw [if_neg h2]
  by_cases h3 : c = 'h'
  · rw [if_pos h3]; exact Inv_move_left e hi
  rw [if_neg h3]
  by_cases h4 : c = 'j'
  · rw [if_pos h4]; exact Inv_move_down e hi
  rw [if_neg h4]
  by_cases h5 : c = 'k'
  · rw [if_pos h5]; exact Inv_move_up e hi
  rw [if_neg h5]
  by_cases h6 : c = 'l'
  · rw [if_pos h6]; exact Inv_move_right e hi
  rw [if_neg h6]
  by_cases h7 : c = 'o'
  · rw [if_pos h7]; exact Inv_insert_line_below e hi
  rw [if_neg h7]
  by_cases h8 : c = 'O'
  · rw [if_pos h8]; exact Inv_insert_line_above e hi
  rw [if_neg h8]
  by_cases h9 : c = 'x'
  · rw [if_pos h9]; exact Inv_delete_char e hi
  rw [if_neg h9]
  by_cases h10 : c = 'd'
  · rw [if_pos h10]; exact Inv_delete_line e hi
  rw [if_neg h10]
  by_cases h11 : c = 'A'
  · rw [if_pos h11]; exact Inv_move_to_end_and_insert e hi
  rw [if_neg h11]
  by_cases h12 : c = 'I'
  · rw [if_pos h12]; exact Inv_move_to_start_and_insert e hi
  rw [if_neg h12]
  by_cases h13 : c = 'u'
  · rw [if_pos h13]; exact Inv_undo e hi
  rw [if_neg h13]
  exact hi

/-- Every key event preserves the structural invariant. -/
theorem Inv_step (e : EditorState) (k : Key) (hi : Inv e) : Inv (step e k) := by
  cases k with
  | up => exact Inv_move_up e hi
  | down => exact Inv_move_down e hi
  | left => exact Inv_move_left e hi
  | right => exact Inv_move_right e hi
  | tab => exact Inv_handle_tab e hi
  | esc =>
    simp only [step]
    split_ifs <;> exact ⟨hi.ne, hi.lt, hi.hist⟩
  | enter =>
    simp only [step]
    split_ifs
    · exact Inv_new_line _ (Inv_save_state e hi)
    · exact Inv_new_line e hi
  | backspace =>
    simp only [step]
    split_ifs
    · exact Inv_backspace _ (Inv_save_state e hi)
    · exact Inv_backspace e hi
  | char c =>
    simp only [step]
    split_ifs
    · exact hi
    · exact Inv_insert_char _ c (Inv_save_state e hi)
    · exact hi
    · exact Inv_normal_command e c hi

/-- Every reachable state satisfies the structural invariant. -/
theorem Reachable_Inv (e : EditorState) (he : Reachable e) : Inv e := by
  induction he with
  | init =>
    refine ⟨by simp [init], by simp [init], ?_⟩
    intro x hx
    simp [init] at hx
  | step k _ ih => exact Inv_step _ k ih

/-- Key sequences stay within the reachable states. -/
theorem Reachable_runKeys (e : EditorState) (ks : List Key) (he : Reachable e) :
    Reachable (runKeys e ks) := by
  induction ks generalizing e with
  | nil => exact he
  | cons k ks ih => exact ih (step e k) (Reachable.step k he)

/-! ### Claims about the editor -/

/-- C3: the cursor bounds invariant fails on the code.  From the initial
state, entering INSERT mode and typing a space then `x` yields the buffer
`[" x"]`; moving the cursor left puts it at column 1, which equals the
line indentation width 1.  The state is reachable and satisfies the
claimed bounds, but pressing backspace takes the indent-deletion branch,
which sets the column to `indent - 4 = -3 < 0`. -/
theorem C3_theorem :
    Reachable (runKeys init [Key.char 'i', Key.char ' ', Key.char 'x', Key.left]) ∧
    (runKeys init [Key.char 'i', Key.char ' ', Key.char 'x', Key.left]).current_col = 1 ∧
    (step (runKeys init [Key.char 'i', Key.char ' ', Key.char 'x', Key.left])
        Key.backspace).current_col = -3 :=
  ⟨Reachable_runKeys init _ Reachable.init, by decide, by decide⟩

/-- C6 counterexample: from a reachable INSERT-mode state, the tab key
mutates the buffer content (it inserts a 4-space run) but pushes nothing
onto the undo stack, contradicting the claim that every content-mutating
INSERT-mode key captures an UndoEntry first. -/
theorem C6_counterexample :
    (runKeys init [Key.char 'i', Key.char 'a', Key.char 'b']).mode = Mode.INSERT ∧
    (step (runKeys init [Key.char 'i', Key.char 'a', Key.char 'b']) Key.tab).lines
        ≠ (runKeys init [Key.char 'i', Key.char 'a', Key.char 'b']).lines ∧
    (step (runKeys init [Key.char 'i', Key.char 'a', Key.char 'b']) Key.tab).history
        = (runKeys init [Key.char 'i', Key.char 'a', Key.char 'b']).history := by
  refine ⟨by decide, by decide, by decide⟩

/-- C6 (amended): in INSERT mode, a buffer-mutating printable-character
insert (any printable character except `?`, which `run` intercepts for
the help window and which therefore neither mutates nor pushes), backspace
and the newline split each push a full copy of the line sequence onto the
undo stack before the mutation is applied; the Tab key, however, mutates
the buffer without pushing anything. -/
theorem C6_theorem (e : EditorState) (c : Char) (hm : e.mode = Mode.INSERT)
    (hq : c ≠ '?') (hc1 : 32 ≤ c.toNat) (hc2 : c.toNat ≤ 126) :
    (step e (Key.char c)).history = e.lines :: e.history ∧
    (step e Key.enter).history = e.lines :: e.history ∧
    (step e Key.backspace).history = e.lines :: e.history ∧
    (step e Key.tab).history = e.history :=
  ⟨step_char_push e c hm hq hc1 hc2, step_enter_push e hm, step_backspace_push e hm,
    step_tab_history e⟩

/-- C6 witness: the amended statement at a concrete INSERT-mode state and
the character `z`. -/
theorem C6_witness :
    (step ⟨["ab"], 0, 1, Mode.INSERT, []⟩ (Key.char 'z')).history = [["ab"]] ∧
    (step ⟨["ab"], 0, 1, Mode.INSERT, []⟩ Key.enter).history = [["ab"]] ∧
    (step ⟨["ab"], 0, 1, Mode.INSERT, []⟩ Key.backspace).history = [["ab"]] ∧
    (step ⟨["ab"], 0, 1, Mode.INSERT, []⟩ Key.tab).history = [] :=
  C6_theorem ⟨["ab"], 0, 1, Mode.INSERT, []⟩ 'z' rfl (by decide) (by decide) (by decide)

/-- C7: the buffer never becomes empty.  Every key event applied to a
reachable state leaves at least one line in the buffer, and `delete_line`
on a one-line buffer is the identity. -/
theorem C7_theorem (e : EditorState) (he : Reachable e) (k : Key) :
    1 ≤ ((step e k).lines).length ∧ (e.lines.length = 1 → delete_line e = e) := by
  constructor
  · exact List.length_pos.mpr (Inv_step e k (Reachable_Inv e he)).ne
  · intro h1
    unfold delete_line
    rw [if_neg]
    omega

/-- C7 witness: the statement at the initial state and the delete-line
key. -/
theorem C7_witness :
    1 ≤ ((step init (Key.char 'd')).lines).length ∧ delete_line init = init :=
  ⟨(C7_theorem init Reachable.init (Key.char 'd')).1,
    (C7_theorem init Reachable.init (Key.char 'd')).2 rfl⟩

/-- C8 counterexample: take the well-formed INSERT-mode state with buffer
`[" x"]` and cursor at column 1 (inside the claimed bounds).  Backspace is
a captured edit; `undo` then restores the prior line sequence exactly, but
the column ends at `-3`, outside the `[0, len(line)] = [0, 2]` interval
the claim asserts for the clamped cursor. -/
theorem C8_counterexample :
    (undo (step ⟨[" x"], 0, 1, Mode.INSERT, []⟩ Key.backspace)).lines = [" x"] ∧
    (undo (step ⟨[" x"], 0, 1, Mode.INSERT, []⟩ Key.backspace)).current_col = -3 := by
  refine ⟨by decide, by decide⟩

/-- C8 (amended): after any single captured INSERT-mode edit (printable
insert — any printable character except the help key `?`, which `run`
intercepts before the INSERT dispatch and which neither edits nor pushes —
newline split, backspace), `undo` restores the exact prior line sequence
and undo stack, and clamps the cursor only from above: the line index to
at most `len(lines) - 1`, the column to at most the restored line's length
(a column that is already negative stays negative).  `undo` on an empty
stack is a no-op, not an error. -/
theorem C8_theorem (e e2 : EditorState) (c : Char) (hm : e.mode = Mode.INSERT)
    (hq : c ≠ '?') (hc1 : 32 ≤ c.toNat) (hc2 : c.toNat ≤ 126)
    (hemp : e2.history = []) :
    undo_restores e (step e (Key.char c)) ∧
    undo_restores e (step e Key.enter) ∧
    undo_restores e (step e Key.backspace) ∧
    undo e2 = e2 := by
  refine ⟨undo_of_push (step_char_push e c hm hq hc1 hc2),
    undo_of_push (step_enter_push e hm),
    undo_of_push (step_backspace_push e hm), ?_⟩
  unfold undo
  rw [hemp]

/-- C8 witness: the amended statement at a concrete INSERT-mode state, the
character `z`, and a concrete state with an empty undo stack. -/
theorem C8_witness :
    undo_restores ⟨["ab"], 0, 1, Mode.INSERT, []⟩
        (step ⟨["ab"], 0, 1, Mode.INSERT, []⟩ (Key.char 'z')) ∧
    undo_restores ⟨["ab"], 0, 1, Mode.INSERT, []⟩
        (step ⟨["ab"], 0, 1, Mode.INSERT, []⟩ Key.enter) ∧
    undo_restores ⟨["ab"], 0, 1, Mode.INSERT, []⟩
        (step ⟨["ab"], 0, 1, Mode.INSERT, []⟩ Key.backspace) ∧
    undo ⟨["q"], 0, 0, Mode.NORMAL, []⟩ = ⟨["q"], 0, 0, Mode.NORMAL, []⟩ :=
  C8_theorem ⟨["ab"], 0, 1, Mode.INSERT, []⟩ ⟨["q"], 0, 0, Mode.NORMAL, []⟩ 'z'
    rfl (by decide) (by decide) (by decide) rfl

/-- C10: the NORMAL-mode delete-character key `x` and delete-line key `d`
leave the undo history untouched, so a subsequent `undo` restores the
snapshot taken before the most recent INSERT-mode edit, not the state
before the deletion. -/
theorem C10_theorem (e : EditorState) (h0 : List String) (t0 : List (List String))
    (hm : e.mode = Mode.NORMAL) (hh : e.history = h0 :: t0) :
    (step e (Key.char 'x')).history = e.history ∧
    (step e (Key.char 'd')).history = e.history ∧
    (undo (step e (Key.char 'x'))).lines = h0 ∧
    (undo (step e (Key.char 'd'))).lines = h0 := by
  have hx : (step e (Key.char 'x')).history = e.history := by
    simp only [step, hm]
    rw [if_neg (by decide), if_neg (by simp)]
    unfold normal_command
    rw [if_neg (by decide), if_neg (by decide), if_neg (by decide), if_neg (by decide),
      if_neg (by decide), if_neg (by decide), if_neg (by decide), if_neg (by decide),
      if_pos rfl]
    exact history_delete_char e
  have hd : (step e (Key.char 'd')).history = e.history := by
    simp only [step, hm]
    rw [if_neg (by decide), if_neg (by simp)]
    unfold normal_command
    rw [if_neg (by decide), if_neg (by decide), if_neg (by decide), if_neg (by decide),
      if_neg (by decide), if_neg (by decide), if_neg (by decide), if_neg (by decide),
      if_neg (by decide), if_pos rfl]
    exact history_delete_line e
  refine ⟨hx, hd, ?_, ?_⟩
  · unfold undo
    rw [hx, hh]
  · unfold undo
    rw [hd, hh]

/-- C10 witness: the statement at a concrete NORMAL-mode state with one
snapshot on the stack. -/
theorem C10_witness :
    (step ⟨["a"], 0, 0, Mode.NORMAL, [["z"]]⟩ (Key.char 'x')).history = [["z"]] ∧
    (step ⟨["a"], 0, 0, Mode.NORMAL, [["z"]]⟩ (Key.char 'd')).history = [["z"]] ∧
    (undo (step ⟨["a"], 0, 0, Mode.NORMAL, [["z"]]⟩ (Key.char 'x'))).lines = ["z"] ∧
    (undo (step ⟨["a"], 0, 0, Mode.NORMAL, [["z"]]⟩ (Key.char 'd'))).lines = ["z"] :=
  C10_theorem ⟨["a"], 0, 0, Mode.NORMAL, [["z"]]⟩ ["z"] [] rfl rfl

end KHROS
